import Mathlib

/-!
Verification of the netcup DNS webhook provider's translation and
reconciliation engine (provider/netcup.go and its source variants).

Strings are modelled as lists of characters (`Str`), Go string helpers
(`strings.Trim`, `strings.HasSuffix`, `strings.TrimSuffix`,
`strings.HasPrefix`, `strings.Fields`, `strconv.ParseUint`) as the
corresponding executable functions below, and the provider's remote calls
as explicit parameters (fetch outcomes, a submit oracle), so that the
control flow of `Records` and `ApplyChanges` becomes a pure fold.
-/

abbrev Str := List Char

/-- `strings.Trim(s, "\"")` applied from the left only: drop every leading
double-quote character. -/
def dropQuotes : Str → Str
  | [] => []
  | c :: cs => if c = '"' then dropQuotes cs else c :: cs

/-- `strings.Trim(s, "\"")`: strip all leading and trailing double quotes. -/
def trimQuotes (s : Str) : Str :=
  (dropQuotes (dropQuotes s).reverse).reverse

/-- `strings.HasPrefix`. -/
def startsWith : Str → Str → Bool
  | _, [] => true
  | [], _ :: _ => false
  | c :: cs, p :: ps => c == p && startsWith cs ps

/-- `strings.HasSuffix`. -/
def hasSuffix (s suffix : Str) : Bool := decide (suffix <:+ s)

/-- `strings.TrimSuffix`. -/
def trimSuffix (s suffix : Str) : Str :=
  if hasSuffix s suffix then s.take (s.length - suffix.length) else s

/-- A netcup DNS record (`nc.DnsRecord`): type, zone-relative hostname,
single destination, opaque id (empty means unknown/new), MX priority,
and the deletion-intent flag. -/
structure DnsRecord where
  type : Str
  hostname : Str
  destination : Str
  id : Str
  priority : Str
  deleteRecord : Bool
deriving DecidableEq, Repr

/-- A canonical endpoint (`endpoint.Endpoint`): fully-qualified name,
record type, list of targets.  The TTL plays no role in the claims. -/
structure Endpoint where
  dnsName : Str
  recordType : Str
  targets : List Str
deriving DecidableEq, Repr

/-- The zone-relative record name computed at the top of
`convertToNetcupRecord`: strip `"." + zoneName` from the endpoint name,
and map a name equal to the zone itself to the apex marker `"@"`. -/
def recordNameFor (dnsName zoneName : Str) : Str :=
  let recordName := trimSuffix dnsName ('.' :: zoneName)
  if recordName = zoneName then ['@'] else recordName

/-- `getIDforRecord` (current provider/netcup.go): normalize the candidate
target and every remote destination by stripping surrounding quotes,
return the id of the first record matching (type, normalized destination,
hostname), and the empty string when none matches. -/
def getIDforRecord (recordName target recordType : Str) : List DnsRecord → Str
  | [] => []
  | r :: recs =>
    if recordType = r.type ∧ trimQuotes target = trimQuotes r.destination ∧ r.hostname = recordName then
      r.id
    else getIDforRecord recordName target recordType recs

/-- `convertToNetcupRecord` (current provider/netcup.go): one record per
target; in a deletion batch the id is resolved against the snapshot and
targets that resolve to the empty id are skipped; otherwise the id is left
empty; the stored destination is the quote-trimmed target. -/
def convertToNetcupRecord (recs : List DnsRecord) (endpoints : List Endpoint)
    (zoneName : Str) (deleteRecord : Bool) : List DnsRecord :=
  endpoints.flatMap (fun ep =>
    let recordName := recordNameFor ep.dnsName zoneName
    ep.targets.filterMap (fun target =>
      if deleteRecord then
        let id := getIDforRecord recordName target ep.recordType recs
        if id = [] then none
        else some { type := ep.recordType, hostname := recordName,
                    destination := trimQuotes target, id := id,
                    priority := [], deleteRecord := deleteRecord }
      else
        some { type := ep.recordType, hostname := recordName,
               destination := trimQuotes target, id := [],
               priority := [], deleteRecord := deleteRecord }))

/-- `endpointZoneName` inner loop (provider variants): fold over the
configured zones keeping the longest suffix match seen so far (the
accumulator starts as the empty string). -/
def endpointZoneNameAux (name : Str) : List Str → Str → Str
  | [], acc => acc
  | z :: zs, acc =>
    if hasSuffix name z ∧ acc.length < z.length then
      endpointZoneNameAux name zs z
    else
      endpointZoneNameAux name zs acc

/-- `endpointZoneName`: the configured zone that is the longest suffix of
the endpoint's DNS name; the empty string when no zone matches. -/
def endpointZoneName (ep : Endpoint) (zones : List Str) : Str :=
  endpointZoneNameAux ep.dnsName zones []

/-- The inline zone routing of the current `ApplyChanges` helper
`processChanges`: iterate over the `perZoneChanges` map and take the FIRST
zone whose name is a suffix of the endpoint name.  Go map iteration order
is unspecified, so the zone list argument stands for one possible
iteration order. -/
def routeZoneFirstMatch (name : Str) : List Str → Str
  | [] => []
  | z :: zs => if hasSuffix name z then z else routeZoneFirstMatch name zs

/-- The read-side destination normalization inside `Records` (current
provider/netcup.go): a TXT destination that does not already start with a
double quote is wrapped in one pair of double quotes; every other
destination passes through unchanged. -/
def txtReadDestination (type dest : Str) : Str :=
  if type = "TXT".toList && !startsWith dest ['"'] then
    '"' :: dest ++ ['"']
  else dest

/-- Abstraction of the per-zone remote fetches performed by `Records`:
either the zone info query fails, the zone TTL does not parse, the record
query fails, or everything succeeds with a TTL and a record list.  (The
"no records exist" status 5029 is not a fetch outcome of its own here:
the claims under study only concern genuine fetch failures.) -/
inductive ZoneFetch where
  | zoneInfoFail : ZoneFetch
  | ttlFail : ZoneFetch
  | recsFail : ZoneFetch
  | ok : Nat → List DnsRecord → ZoneFetch
deriving DecidableEq, Repr

/-- A fetch outcome that makes the zone's data unavailable. -/
def ZoneFetch.failed : ZoneFetch → Bool
  | .ok _ _ => false
  | _ => true

/-- The per-zone loop of `Records` (current provider/netcup.go): any zone
whose info query, TTL parse or record query fails makes the whole read
return an error; otherwise the zone's endpoints (built from its records
and TTL by the grouping step, abstracted as `build`) are appended. -/
def recordsLoop (build : Str → Nat → List DnsRecord → List Endpoint) :
    List (Str × ZoneFetch) → Except Unit (List Endpoint)
  | [] => .ok []
  | (zone, fetch) :: rest =>
    match fetch with
    | .zoneInfoFail => .error ()
    | .ttlFail => .error ()
    | .recsFail => .error ()
    | .ok ttl recs =>
      match recordsLoop build rest with
      | .error e => .error e
      | .ok eps => .ok (build zone ttl recs ++ eps)

/-- The four endpoint lists of a `plan.Changes` value. -/
structure Changes where
  create : List Endpoint
  updateOld : List Endpoint
  updateNew : List Endpoint
  delete : List Endpoint
deriving DecidableEq, Repr

/-- Labels for the four translated batches of a `NetcupChange`. -/
inductive BatchLabel where
  | updateOld : BatchLabel
  | delete : BatchLabel
  | create : BatchLabel
  | updateNew : BatchLabel
deriving DecidableEq, Repr

/-- The batches submitted for one zone by the current `ApplyChanges`, in
submission order: update-old (translated with the deletion flag), delete,
create, update-new (source lines 521-544). -/
def zoneBatches (c : Changes) (zoneName : Str) (recs : List DnsRecord) :
    List (BatchLabel × List DnsRecord) :=
  [(BatchLabel.updateOld, convertToNetcupRecord recs c.updateOld zoneName true),
   (BatchLabel.delete, convertToNetcupRecord recs c.delete zoneName true),
   (BatchLabel.create, convertToNetcupRecord recs c.create zoneName false),
   (BatchLabel.updateNew, convertToNetcupRecord recs c.updateNew zoneName false)]

/-- Run one zone's submissions in order, stopping at the first failed
`UpdateDnsRecords` call; returns the trace of attempted submissions and
whether all of them succeeded.  `submit` is the transport oracle. -/
def runBatches (submit : Str → BatchLabel × List DnsRecord → Bool) (zone : Str) :
    List (BatchLabel × List DnsRecord) → List (Str × BatchLabel) × Bool
  | [] => ([], true)
  | b :: bs =>
    if submit zone b then
      let r := runBatches submit zone bs
      ((zone, b.1) :: r.1, r.2)
    else ([(zone, b.1)], false)

/-- The per-zone loop at the end of the current `ApplyChanges`: zones are
processed in map-iteration order (given here as a list); each zone's
batches are submitted via `runBatches`; the first failed submission makes
the whole call return that error, skipping every remaining zone. -/
def applyLoop (submit : Str → BatchLabel × List DnsRecord → Bool) :
    List (Str × Changes × List DnsRecord) → List (Str × BatchLabel) × Bool
  | [] => ([], true)
  | (zone, c, recs) :: rest =>
    let r := runBatches submit zone (zoneBatches c zone recs)
    if r.2 then
      let r2 := applyLoop submit rest
      (r.1 ++ r2.1, r2.2)
    else (r.1, false)

/-- Go `unicode.IsSpace` restricted to the ASCII whitespace characters
that can occur in DNS record targets. -/
def isSpaceChar (c : Char) : Bool :=
  c == ' ' || c == '\t' || c == '\n' || c == '\r'

/-- Left half of `strings.TrimSpace`. -/
def dropSpaces : Str → Str
  | [] => []
  | c :: cs => if isSpaceChar c then dropSpaces cs else c :: cs

/-- `strings.TrimSpace`. -/
def trimSpace (s : Str) : Str :=
  (dropSpaces (dropSpaces s).reverse).reverse

/-- Accumulator-based word splitter behind `fields`. -/
def fieldsAux : Str → Str → List Str
  | [], acc => if acc = [] then [] else [acc.reverse]
  | c :: cs, acc =>
    if isSpaceChar c then
      if acc = [] then fieldsAux cs [] else acc.reverse :: fieldsAux cs []
    else fieldsAux cs (c :: acc)

/-- `strings.Fields`: split around runs of whitespace. -/
def fields (s : Str) : List Str := fieldsAux s []

/-- Decimal digit test. -/
def isDigitChar (c : Char) : Bool := '0' ≤ c && c ≤ '9'

/-- Numeric value of a digit string. -/
def digitsVal (s : Str) : Nat :=
  s.foldl (fun acc c => acc * 10 + (c.toNat - '0'.toNat)) 0

/-- `strconv.ParseUint(s, 10, 16)`: a non-empty all-digit string whose
value fits in 16 bits; anything else is a parse error (`none`). -/
def parseU16 (s : Str) : Option Nat :=
  if s ≠ [] ∧ s.all isDigitChar ∧ digitsVal s ≤ 65535 then some (digitsVal s) else none

namespace Variant

/-- `getIDforRecord` from the part_005 source variant: exact comparison on
(type, destination, hostname), no quote normalization. -/
def getIDforRecord (recordName target recordType : Str) : List DnsRecord → Str
  | [] => []
  | r :: recs =>
    if recordType = r.type ∧ target = r.destination ∧ r.hostname = recordName then
      r.id
    else getIDforRecord recordName target recordType recs

/-- The body of `convertToNetcupRecord` from the part_005 source variant
for one endpoint: take the first target; strip quotes from a TXT heritage
marker; for MX split the target into priority and host when it has the
shape of a 16-bit priority followed by a host; emit one record for the
(possibly rewritten) first target, then one extra record per remaining
target for A/AAAA endpoints. -/
def convertOne (recs : List DnsRecord) (zoneName : Str) (deleteRecord : Bool)
    (ep : Endpoint) : List DnsRecord :=
  let recordName := recordNameFor ep.dnsName zoneName
  let target0 := ep.targets.headD []
  let target1 :=
    if ep.recordType = "TXT".toList ∧ startsWith target0 "\"heritage=".toList then
      trimQuotes target0
    else target0
  let parsed :=
    if ep.recordType = "MX".toList then
      match fields (trimSpace target1) with
      | [p, host] => if (parseU16 p).isSome then (p, host) else ([], target1)
      | _ => ([], target1)
    else ([], target1)
  let priority := parsed.1
  let target := parsed.2
  let first : DnsRecord :=
    { id := getIDforRecord recordName target ep.recordType recs,
      hostname := recordName, type := ep.recordType, priority := priority,
      destination := target, deleteRecord := deleteRecord }
  let extras : List DnsRecord :=
    if ep.recordType = "A".toList ∨ ep.recordType = "AAAA".toList then
      (ep.targets.drop 1).map (fun t =>
        { id := getIDforRecord recordName t ep.recordType recs,
          hostname := recordName, type := ep.recordType, priority := priority,
          destination := t, deleteRecord := deleteRecord })
    else []
  first :: extras

/-- `convertToNetcupRecord` from the part_005 source variant. -/
def convertToNetcupRecord (recs : List DnsRecord) (endpoints : List Endpoint)
    (zoneName : Str) (deleteRecord : Bool) : List DnsRecord :=
  endpoints.flatMap (convertOne recs zoneName deleteRecord)

/-- The per-zone loop of `Records` from the part_005 source variant: a
zone whose info query, TTL parse or record query fails is skipped with a
log line and contributes no endpoints; the loop itself never fails. -/
def recordsLoop (build : Str → Nat → List DnsRecord → List Endpoint) :
    List (Str × ZoneFetch) → List Endpoint
  | [] => []
  | (zone, fetch) :: rest =>
    match fetch with
    | .ok ttl recs => build zone ttl recs ++ recordsLoop build rest
    | _ => recordsLoop build rest

/-- The batches submitted for one zone by the part_005 `ApplyChanges`, in
submission order: the update-old submission is commented out there, so
only delete, create and update-new are submitted. -/
def zoneBatches (c : Changes) (zoneName : Str) (recs : List DnsRecord) :
    List (BatchLabel × List DnsRecord) :=
  [(BatchLabel.delete, convertToNetcupRecord recs c.delete zoneName true),
   (BatchLabel.create, convertToNetcupRecord recs c.create zoneName false),
   (BatchLabel.updateNew, convertToNetcupRecord recs c.updateNew zoneName false)]

end Variant

/-! ### Lemmas about quote trimming -/

theorem dropQuotes_cons_quote (s : Str) : dropQuotes ('"' :: s) = dropQuotes s := by
  simp [dropQuotes]

theorem dropQuotes_cons_ne {c : Char} (s : Str) (h : c ≠ '"') :
    dropQuotes (c :: s) = c :: s := by
  simp [dropQuotes, h]

theorem dropQuotes_eq_self {s : Str} (h : s.head? ≠ some '"') :
    dropQuotes s = s := by
  cases s with
  | nil => rfl
  | cons c cs =>
    simp only [List.head?_cons, ne_eq, Option.some.injEq] at h
    exact dropQuotes_cons_ne cs h

theorem dropQuotes_append_quote (s : Str) :
    dropQuotes (s ++ ['"']) =
      if dropQuotes s = [] then [] else dropQuotes s ++ ['"'] := by
  induction s with
  | nil => simp [dropQuotes]
  | cons c cs ih =>
    by_cases hc : c = '"'
    · subst hc
      simpa [dropQuotes_cons_quote] using ih
    · simp [dropQuotes_cons_ne _ hc, dropQuotes_cons_ne (cs ++ ['"']) hc]

theorem trimQuotes_nil : trimQuotes [] = [] := rfl

theorem trimQuotes_wrap (s : Str) :
    trimQuotes ('"' :: s ++ ['"']) = trimQuotes s := by
  unfold trimQuotes
  rw [show ('"' :: s ++ ['"'] : Str) = ('"' :: (s ++ ['"'])) from rfl,
      dropQuotes_cons_quote, dropQuotes_append_quote]
  by_cases h : dropQuotes s = []
  · simp [h]
  · rw [if_neg h]
    have hrev : (dropQuotes s ++ ['"']).reverse = '"' :: (dropQuotes s).reverse := by
      simp
    rw [hrev, dropQuotes_cons_quote]

theorem trimQuotes_eq_self {s : Str} (h1 : s.head? ≠ some '"')
    (h2 : s.getLast? ≠ some '"') : trimQuotes s = s := by
  unfold trimQuotes
  rw [dropQuotes_eq_self h1, dropQuotes_eq_self (by
    rwa [List.head?_reverse]), List.reverse_reverse]

theorem trimQuotes_wrap_eq {s : Str} (h1 : s.head? ≠ some '"')
    (h2 : s.getLast? ≠ some '"') : trimQuotes ('"' :: s ++ ['"']) = s := by
  rw [trimQuotes_wrap, trimQuotes_eq_self h1 h2]

/-! ### Lemmas about the ID resolver -/

theorem getIDforRecord_congr (name ty : Str) {t1 t2 : Str}
    (h : trimQuotes t1 = trimQuotes t2) (recs : List DnsRecord) :
    getIDforRecord name t1 ty recs = getIDforRecord name t2 ty recs := by
  induction recs with
  | nil => rfl
  | cons r rs ih => simp only [getIDforRecord, h, ih]

theorem getIDforRecord_wrap (name t ty : Str) (recs : List DnsRecord) :
    getIDforRecord name ('"' :: t ++ ['"']) ty recs =
      getIDforRecord name t ty recs :=
  getIDforRecord_congr name ty (trimQuotes_wrap t) recs

theorem getIDforRecord_eq_find (name t ty : Str) (recs : List DnsRecord) :
    getIDforRecord name t ty recs =
      ((recs.find? fun r =>
          decide (ty = r.type ∧ trimQuotes t = trimQuotes r.destination ∧
            r.hostname = name)).map DnsRecord.id).getD [] := by
  induction recs with
  | nil => rfl
  | cons r rs ih =>
    by_cases h : ty = r.type ∧ trimQuotes t = trimQuotes r.destination ∧ r.hostname = name
    · simp [getIDforRecord, h, List.find?_cons]
    · simp only [getIDforRecord, if_neg h, ih, List.find?_cons]
      rw [decide_eq_false h]

/-! ### Lemmas about the record translator -/

theorem filterMap_some_eq_map {α β : Type} (f : α → β) (l : List α) :
    l.filterMap (fun a => some (f a)) = l.map f := by
  induction l with
  | nil => rfl
  | cons a as ih => simp [List.filterMap_cons, ih]

theorem convertToNetcupRecord_false (recs : List DnsRecord) (eps : List Endpoint)
    (zoneName : Str) :
    convertToNetcupRecord recs eps zoneName false =
      eps.flatMap (fun ep => ep.targets.map (fun t =>
        { type := ep.recordType, hostname := recordNameFor ep.dnsName zoneName,
          destination := trimQuotes t, id := [], priority := [],
          deleteRecord := false })) := by
  simp only [convertToNetcupRecord]
  congr 1
  funext ep
  simp only [Bool.false_eq_true, if_false]
  exact filterMap_some_eq_map _ _

theorem mem_convertToNetcupRecord_true {recs : List DnsRecord}
    {eps : List Endpoint} {zoneName : Str} {r : DnsRecord}
    (h : r ∈ convertToNetcupRecord recs eps zoneName true) :
    ∃ ep ∈ eps, ∃ t ∈ ep.targets,
      getIDforRecord (recordNameFor ep.dnsName zoneName) t ep.recordType recs ≠ [] ∧
      r = { type := ep.recordType, hostname := recordNameFor ep.dnsName zoneName,
            destination := trimQuotes t,
            id := getIDforRecord (recordNameFor ep.dnsName zoneName) t ep.recordType recs,
            priority := [], deleteRecord := true } := by
  simp only [convertToNetcupRecord, List.mem_flatMap] at h
  obtain ⟨ep, hep, hr⟩ := h
  simp only [List.mem_filterMap] at hr
  obtain ⟨t, ht, hg⟩ := hr
  refine ⟨ep, hep, t, ht, ?_⟩
  by_cases hid :
      getIDforRecord (recordNameFor ep.dnsName zoneName) t ep.recordType recs = []
  · simp [hid] at hg
  · simp [hid] at hg
    exact ⟨hid, hg.symm⟩

theorem convert_true_one_length (recs : List DnsRecord) (ep : Endpoint)
    (zoneName : Str) :
    (convertToNetcupRecord recs [ep] zoneName true).length =
      (ep.targets.filter (fun t =>
        decide (getIDforRecord (recordNameFor ep.dnsName zoneName) t
          ep.recordType recs ≠ []))).length := by
  simp only [convertToNetcupRecord, List.flatMap_cons, List.flatMap_nil,
    List.append_nil]
  induction ep.targets with
  | nil => rfl
  | cons t ts ih =>
    by_cases hid :
        getIDforRecord (recordNameFor ep.dnsName zoneName) t ep.recordType recs = []
    · simpa [List.filterMap_cons, List.filter_cons, hid] using ih
    · simpa [List.filterMap_cons, List.filter_cons, hid] using ih

/-! ### Claim theorems: the record translator -/

/-- C1 (confirmed).  Translating a deletion batch with the current
`convertToNetcupRecord`: every emitted record carries a non-empty
identifier and the deletion flag, and whenever the ID resolver finds no
identifier for a (hostname, target, type) triple in the snapshot, the
output contains no record with that hostname, type and (quote-stripped)
destination. -/
theorem deletion_batch_never_emits_unresolved (recs : List DnsRecord)
    (eps : List Endpoint) (zoneName : Str) :
    (∀ r ∈ convertToNetcupRecord recs eps zoneName true,
        r.id ≠ [] ∧ r.deleteRecord = true) ∧
    (∀ hostname ty t, getIDforRecord hostname t ty recs = [] →
      ∀ r ∈ convertToNetcupRecord recs eps zoneName true,
        ¬(r.hostname = hostname ∧ r.type = ty ∧ r.destination = trimQuotes t)) := by
  constructor
  · intro r hr
    obtain ⟨ep, _, t, _, hid, hrec⟩ := mem_convertToNetcupRecord_true hr
    subst hrec
    exact ⟨hid, rfl⟩
  · rintro hostname ty t hmiss r hr ⟨hh, hty, hd⟩
    obtain ⟨ep, _, t', _, hid, hrec⟩ := mem_convertToNetcupRecord_true hr
    subst hrec
    apply hid
    simp only at hh hty hd
    rw [hh, hty, getIDforRecord_congr hostname ty hd recs]
    exact hmiss

/-- Witness for C1 at a concrete input: a one-record snapshot, a matching
endpoint, deletion flag set. -/
theorem deletion_batch_never_emits_unresolved_witness :
    ((⟨"A".toList, "foo".toList, "5.5.5.5".toList, "10".toList, [], true⟩ :
        DnsRecord).id ≠ [] ∧
      (⟨"A".toList, "foo".toList, "5.5.5.5".toList, "10".toList, [], true⟩ :
        DnsRecord).deleteRecord = true) ∧
    ¬((⟨"A".toList, "foo".toList, "5.5.5.5".toList, "10".toList, [], true⟩ :
        DnsRecord).hostname = "zzz".toList ∧
      (⟨"A".toList, "foo".toList, "5.5.5.5".toList, "10".toList, [], true⟩ :
        DnsRecord).type = "TXT".toList ∧
      (⟨"A".toList, "foo".toList, "5.5.5.5".toList, "10".toList, [], true⟩ :
        DnsRecord).destination = trimQuotes "v".toList) :=
  ⟨(deletion_batch_never_emits_unresolved
      [⟨"A".toList, "foo".toList, "5.5.5.5".toList, "10".toList, [], false⟩]
      [⟨"foo.bar.org".toList, "A".toList, ["5.5.5.5".toList]⟩]
      "bar.org".toList).1 _ (by decide),
   (deletion_batch_never_emits_unresolved
      [⟨"A".toList, "foo".toList, "5.5.5.5".toList, "10".toList, [], false⟩]
      [⟨"foo.bar.org".toList, "A".toList, ["5.5.5.5".toList]⟩]
      "bar.org".toList).2 "zzz".toList "TXT".toList "v".toList (by decide)
      _ (by decide)⟩

/-- C2 counterexample.  A deletion batch does NOT yield one record per
target: one endpoint with one target against an empty snapshot yields
zero records, because the resolver miss is skipped. -/
theorem translation_cardinality_counterexample :
    (convertToNetcupRecord []
        [⟨"a.bar.org".toList, "A".toList, ["5.5.5.5".toList]⟩]
        "bar.org".toList true).length = 0 ∧
    (⟨"a.bar.org".toList, "A".toList,
        ["5.5.5.5".toList]⟩ : Endpoint).targets.length = 1 := by
  decide

/-- C2 (amended).  For non-deletion batches, translation yields exactly
one record per target, sharing the endpoint's record name and type and
differing only in the destination, so the total output length is the sum
of the endpoints' target counts; for deletion batches, the output length
of a single endpoint is the number of its targets whose identifier
resolves to a non-empty id (resolver misses are omitted). -/
theorem translation_cardinality (recs : List DnsRecord) (eps : List Endpoint)
    (ep : Endpoint) (zoneName : Str) :
    (convertToNetcupRecord recs eps zoneName false).length =
      (eps.map (fun e => e.targets.length)).sum ∧
    convertToNetcupRecord recs [ep] zoneName false =
      ep.targets.map (fun t =>
        { type := ep.recordType, hostname := recordNameFor ep.dnsName zoneName,
          destination := trimQuotes t, id := [], priority := [],
          deleteRecord := false }) ∧
    (convertToNetcupRecord recs [ep] zoneName true).length =
      (ep.targets.filter (fun t =>
        decide (getIDforRecord (recordNameFor ep.dnsName zoneName) t
          ep.recordType recs ≠ []))).length := by
  refine ⟨?_, ?_, convert_true_one_length recs ep zoneName⟩
  · rw [convertToNetcupRecord_false]
    rw [List.length_flatMap]
    congr 1
    simp
  · rw [convertToNetcupRecord_false]
    simp

/-- C8 (confirmed).  The ID resolver strips surrounding quotes from both
the candidate target and every remote destination before comparing (so a
quote-wrapped target resolves exactly like its unquoted form), returns
the id of the first record in the snapshot matching (type, normalized
destination, hostname), and the empty string when no record matches. -/
theorem id_resolver_first_match_quote_insensitive (name t ty : Str)
    (recs : List DnsRecord) :
    getIDforRecord name ('"' :: t ++ ['"']) ty recs =
      getIDforRecord name t ty recs ∧
    getIDforRecord name t ty recs =
      ((recs.find? fun r =>
          decide (ty = r.type ∧ trimQuotes t = trimQuotes r.destination ∧
            r.hostname = name)).map DnsRecord.id).getD [] :=
  ⟨getIDforRecord_wrap name t ty recs, getIDforRecord_eq_find name t ty recs⟩

/-- C10 (confirmed).  With the deletion flag false (create and update-new
batches), every emitted record carries the empty identifier and a false
deletion flag, and the output does not depend on the remote snapshot at
all (the resolver is never consulted). -/
theorem non_deletion_batch_empty_ids (recs recs2 : List DnsRecord)
    (eps : List Endpoint) (zoneName : Str) :
    (∀ r ∈ convertToNetcupRecord recs eps zoneName false,
        r.id = [] ∧ r.deleteRecord = false) ∧
    convertToNetcupRecord recs eps zoneName false =
      convertToNetcupRecord recs2 eps zoneName false := by
  constructor
  · intro r hr
    rw [convertToNetcupRecord_false] at hr
    simp only [List.mem_flatMap, List.mem_map] at hr
    obtain ⟨ep, _, t, _, hrec⟩ := hr
    subst hrec
    exact ⟨rfl, rfl⟩
  · rw [convertToNetcupRecord_false, convertToNetcupRecord_false]

/-- Witness for C10 at a concrete input. -/
theorem non_deletion_batch_empty_ids_witness :
    ((⟨"A".toList, "a".toList, "5.5.5.5".toList, [], [], false⟩ :
        DnsRecord).id = [] ∧
      (⟨"A".toList, "a".toList, "5.5.5.5".toList, [], [], false⟩ :
        DnsRecord).deleteRecord = false) :=
  (non_deletion_batch_empty_ids
    [⟨"A".toList, "a".toList, "5.5.5.5".toList, "7".toList, [], false⟩] []
    [⟨"a.bar.org".toList, "A".toList, ["5.5.5.5".toList]⟩]
    "bar.org".toList).1 _ (by decide)

theorem startsWith_quote_eq (s : Str) :
    startsWith s ['"'] = (s.head? == some '"') := by
  cases s with
  | nil => rfl
  | cons c cs => simp [startsWith]

/-! ### Claim theorems: TXT quoting -/

/-- C7 counterexample.  The TXT target consisting of two pairs of quotes
around `x` IS wrapped in quotes (it starts and ends with a double quote),
but `strings.Trim` removes BOTH pairs on translation (destination `x`),
and the read-side renormalization adds back only one pair, yielding a
different target than the original. -/
theorem txt_roundtrip_counterexample :
    startsWith "\"\"x\"\"".toList ['"'] = true ∧
    hasSuffix "\"\"x\"\"".toList ['"'] = true ∧
    convertToNetcupRecord []
        [⟨"t.bar.org".toList, "TXT".toList, ["\"\"x\"\"".toList]⟩]
        "bar.org".toList false =
      [⟨"TXT".toList, "t".toList, "x".toList, [], [], false⟩] ∧
    txtReadDestination "TXT".toList "x".toList ≠ "\"\"x\"\"".toList := by
  decide

/-- C7 (amended).  For a TXT target wrapped in a SINGLE pair of quotes
whose interior neither starts nor ends with a quote character, the current
translator emits the unquoted interior as the remote destination, and the
read-side renormalization of that destination reproduces the original
quoted target exactly. -/
theorem txt_roundtrip (recs : List DnsRecord) (name zoneName s : Str)
    (h1 : s.head? ≠ some '"') (h2 : s.getLast? ≠ some '"') :
    convertToNetcupRecord recs
        [⟨name, "TXT".toList, ['"' :: s ++ ['"']]⟩] zoneName false =
      [{ type := "TXT".toList, hostname := recordNameFor name zoneName,
         destination := s, id := [], priority := [], deleteRecord := false }] ∧
    txtReadDestination "TXT".toList s = '"' :: s ++ ['"'] := by
  constructor
  · rw [convertToNetcupRecord_false]
    simp
    exact trimQuotes_wrap_eq h1 h2
  · unfold txtReadDestination
    rw [startsWith_quote_eq]
    have hfalse : (s.head? == some '"') = false := by
      cases hh : s.head? with
      | none => rfl
      | some c =>
        simp only [beq_eq_false_iff_ne, ne_eq, Option.some.injEq]
        intro hc
        exact h1 (by rw [hh, hc])
    rw [hfalse]
    simp

/-- Witness for C7 at the concrete heritage-marker interior. -/
theorem txt_roundtrip_witness :
    convertToNetcupRecord []
        [⟨"t.bar.org".toList, "TXT".toList,
          ['"' :: "heritage=a".toList ++ ['"']]⟩] "bar.org".toList false =
      [{ type := "TXT".toList, hostname := recordNameFor "t.bar.org".toList "bar.org".toList,
         destination := "heritage=a".toList, id := [], priority := [],
         deleteRecord := false }] ∧
    txtReadDestination "TXT".toList "heritage=a".toList =
      '"' :: "heritage=a".toList ++ ['"'] :=
  txt_roundtrip [] "t.bar.org".toList "bar.org".toList "heritage=a".toList
    (by decide) (by decide)

/-! ### Claim theorems: MX translation -/

/-- C9 counterexample.  The current `convertToNetcupRecord` contains no MX
handling at all: for the well-formed MX target `10 mail.example.com` it
emits the whole target as the destination and an empty priority, whereas
the claim requires destination `mail.example.com` and priority `10`. -/
theorem mx_translation_counterexample :
    convertToNetcupRecord []
        [⟨"mx.bar.org".toList, "MX".toList, ["10 mail.example.com".toList]⟩]
        "bar.org".toList false =
      [⟨"MX".toList, "mx".toList, "10 mail.example.com".toList, [], [], false⟩] ∧
    "10 mail.example.com".toList ≠ "mail.example.com".toList ∧
    ([] : Str) ≠ "10".toList := by
  decide

/-- C9 (amended).  The current translation path performs no MX parsing:
the emitted record's destination is the quote-trimmed whole target and its
priority is empty.  The priority-splitting behaviour the claim describes
is implemented in the part_005 variant translator for the endpoint's
first target: when the target splits into two fields whose first parses as
an unsigned 16-bit integer, the record carries that priority and the host
as destination; otherwise the target is kept unmodified with an empty
priority, and no error is possible. -/
theorem mx_translation (recs : List DnsRecord) (name zoneName t p host : Str) :
    (convertToNetcupRecord recs [⟨name, "MX".toList, [t]⟩] zoneName false =
      [{ type := "MX".toList, hostname := recordNameFor name zoneName,
         destination := trimQuotes t, id := [], priority := [],
         deleteRecord := false }]) ∧
    (fields (trimSpace t) = [p, host] → (parseU16 p).isSome = true →
      Variant.convertToNetcupRecord recs [⟨name, "MX".toList, [t]⟩] zoneName false =
        [{ id := Variant.getIDforRecord (recordNameFor name zoneName) host
              "MX".toList recs,
           hostname := recordNameFor name zoneName, type := "MX".toList,
           priority := p, destination := host, deleteRecord := false }]) ∧
    ((∀ q h2, fields (trimSpace t) = [q, h2] → parseU16 q = none) →
      Variant.convertToNetcupRecord recs [⟨name, "MX".toList, [t]⟩] zoneName false =
        [{ id := Variant.getIDforRecord (recordNameFor name zoneName) t
              "MX".toList recs,
           hostname := recordNameFor name zoneName, type := "MX".toList,
           priority := [], destination := t, deleteRecord := false }]) := by
  refine ⟨?_, ?_, ?_⟩
  · rw [convertToNetcupRecord_false]
    simp
  · intro hfields hp
    simp only [Variant.convertToNetcupRecord, List.flatMap_cons, List.flatMap_nil,
      List.append_nil, Variant.convertOne]
    simp [hfields, hp, show ("MX".toList : Str) ≠ "TXT".toList from by decide,
      show ("MX".toList : Str) ≠ "A".toList from by decide,
      show ("MX".toList : Str) ≠ "AAAA".toList from by decide]
  · intro hfail
    simp only [Variant.convertToNetcupRecord, List.flatMap_cons, List.flatMap_nil,
      List.append_nil, Variant.convertOne]
    rcases hf : fields (trimSpace t) with _ | ⟨q, _ | ⟨h2, _ | ⟨x, xs⟩⟩⟩
    · simp [hf, show ("MX".toList : Str) ≠ "TXT".toList from by decide,
        show ("MX".toList : Str) ≠ "A".toList from by decide,
        show ("MX".toList : Str) ≠ "AAAA".toList from by decide]
    · simp [hf, show ("MX".toList : Str) ≠ "TXT".toList from by decide,
        show ("MX".toList : Str) ≠ "A".toList from by decide,
        show ("MX".toList : Str) ≠ "AAAA".toList from by decide]
    · have hq : parseU16 q = none := hfail q h2 hf
      simp [hf, hq, show ("MX".toList : Str) ≠ "TXT".toList from by decide,
        show ("MX".toList : Str) ≠ "A".toList from by decide,
        show ("MX".toList : Str) ≠ "AAAA".toList from by decide]
    · simp [hf, show ("MX".toList : Str) ≠ "TXT".toList from by decide,
        show ("MX".toList : Str) ≠ "A".toList from by decide,
        show ("MX".toList : Str) ≠ "AAAA".toList from by decide]

/-- Witness for C9: the spec's own examples, a well-formed MX target and a
malformed one, evaluated through both translation paths. -/
theorem mx_translation_witness :
    (Variant.convertToNetcupRecord [] [⟨"mx.bar.org".toList, "MX".toList,
        ["10 mail.example.com".toList]⟩] "bar.org".toList false =
      [{ id := Variant.getIDforRecord (recordNameFor "mx.bar.org".toList "bar.org".toList)
            "mail.example.com".toList "MX".toList [],
         hostname := recordNameFor "mx.bar.org".toList "bar.org".toList,
         type := "MX".toList, priority := "10".toList,
         destination := "mail.example.com".toList, deleteRecord := false }]) ∧
    (Variant.convertToNetcupRecord [] [⟨"mx.bar.org".toList, "MX".toList,
        ["notanumber host".toList]⟩] "bar.org".toList false =
      [{ id := Variant.getIDforRecord (recordNameFor "mx.bar.org".toList "bar.org".toList)
            "notanumber host".toList "MX".toList [],
         hostname := recordNameFor "mx.bar.org".toList "bar.org".toList,
         type := "MX".toList, priority := [],
         destination := "notanumber host".toList, deleteRecord := false }]) :=
  ⟨(mx_translation [] "mx.bar.org".toList "bar.org".toList
      "10 mail.example.com".toList "10".toList "mail.example.com".toList).2.1
      (by decide) (by decide),
   (mx_translation [] "mx.bar.org".toList "bar.org".toList
      "notanumber host".toList [] []).2.2 (by
        intro q h2 hqh
        rw [show fields (trimSpace "notanumber host".toList) =
          ["notanumber".toList, "host".toList] from by decide] at hqh
        obtain ⟨hq, -⟩ : "notanumber".toList = q ∧ "host".toList = h2 := by
          simpa using hqh
        subst hq
        decide)⟩

/-! ### Lemmas about the read and apply loops -/

theorem recordsLoop_error_of_failed (build : Str → Nat → List DnsRecord → List Endpoint)
    {zone : Str} {f : ZoneFetch} (hf : f.failed = true) :
    ∀ zs : List (Str × ZoneFetch), (zone, f) ∈ zs →
      recordsLoop build zs = .error () := by
  intro zs
  induction zs with
  | nil => intro h; cases h
  | cons zf rest ih =>
    intro hmem
    obtain ⟨z', f'⟩ := zf
    cases f' with
    | zoneInfoFail => rfl
    | ttlFail => rfl
    | recsFail => rfl
    | ok ttl recs =>
      rcases List.mem_cons.mp hmem with heq | hrest
      · injection heq with h1 h2
        rw [h2] at hf
        simp [ZoneFetch.failed] at hf
      · simp only [recordsLoop, ih hrest]

theorem variant_recordsLoop_skip (build : Str → Nat → List DnsRecord → List Endpoint)
    {f : ZoneFetch} (hf : f.failed = true) (zone : Str)
    (zs1 zs2 : List (Str × ZoneFetch)) :
    Variant.recordsLoop build (zs1 ++ (zone, f) :: zs2) =
      Variant.recordsLoop build (zs1 ++ zs2) := by
  induction zs1 with
  | nil =>
    cases f with
    | ok ttl recs => simp [ZoneFetch.failed] at hf
    | zoneInfoFail => rfl
    | ttlFail => rfl
    | recsFail => rfl
  | cons zf rest ih =>
    obtain ⟨z', f'⟩ := zf
    have ih' : Variant.recordsLoop build (rest.append ((zone, f) :: zs2)) =
        Variant.recordsLoop build (rest.append zs2) := ih
    cases f' <;> simp only [List.cons_append, Variant.recordsLoop, ih']

theorem runBatches_trace_zone (submit : Str → BatchLabel × List DnsRecord → Bool)
    (zone : Str) :
    ∀ bs, ∀ e ∈ (runBatches submit zone bs).1, e.1 = zone := by
  intro bs
  induction bs with
  | nil => intro e he; cases he
  | cons b bs ih =>
    intro e he
    by_cases hs : submit zone b = true
    · simp only [runBatches, hs, if_true] at he
      rcases List.mem_cons.mp he with h | h
      · rw [h]
      · exact ih e h
    · rw [runBatches, if_neg hs] at he
      rcases List.mem_cons.mp he with h | h
      · rw [h]
      · cases h

/-! ### Claim theorems: read failure policy -/

/-- C3 counterexample.  In the current `Records` loop a single zone's
failed zone-info fetch makes the whole read return an error, even though
the other zone on its own reads fine. -/
theorem read_failure_counterexample :
    recordsLoop (fun _ _ _ => [])
        [("a.org".toList, .zoneInfoFail), ("b.org".toList, .ok 300 [])] =
      .error () ∧
    recordsLoop (fun _ _ _ => []) [("b.org".toList, .ok 300 [])] = .ok [] :=
  ⟨rfl, rfl⟩

/-- C3 (amended).  In the current `Records`, any zone whose metadata or
record fetch fails aborts the whole read with an error; the claimed
skip-and-continue policy holds only in the part_005 variant of `Records`,
where a failing zone contributes zero endpoints and the loop, which never
returns an error, continues with the remaining zones. -/
theorem read_zone_failure_policy (build : Str → Nat → List DnsRecord → List Endpoint)
    (zs zs1 zs2 : List (Str × ZoneFetch)) (zone : Str) (f : ZoneFetch) :
    (f.failed = true → (zone, f) ∈ zs → recordsLoop build zs = .error ()) ∧
    (f.failed = true →
      Variant.recordsLoop build (zs1 ++ (zone, f) :: zs2) =
        Variant.recordsLoop build (zs1 ++ zs2)) :=
  ⟨fun hf hm => recordsLoop_error_of_failed build hf zs hm,
   fun hf => variant_recordsLoop_skip build hf zone zs1 zs2⟩

/-- Witness for C3 at concrete zone lists. -/
theorem read_zone_failure_policy_witness :
    recordsLoop (fun _ _ _ => [])
        [("a.org".toList, ZoneFetch.zoneInfoFail), ("b.org".toList, ZoneFetch.ok 300 [])] =
      .error () ∧
    Variant.recordsLoop (fun _ _ _ => [])
        ([] ++ ("a.org".toList, ZoneFetch.zoneInfoFail) ::
          [("b.org".toList, ZoneFetch.ok 300 [])]) =
      Variant.recordsLoop (fun _ _ _ => [])
        ([] ++ [("b.org".toList, ZoneFetch.ok 300 [])]) :=
  ⟨(read_zone_failure_policy (fun _ _ _ => [])
      [("a.org".toList, ZoneFetch.zoneInfoFail), ("b.org".toList, ZoneFetch.ok 300 [])]
      [] [("b.org".toList, ZoneFetch.ok 300 [])]
      "a.org".toList ZoneFetch.zoneInfoFail).1 (by decide) (by decide),
   (read_zone_failure_policy (fun _ _ _ => [])
      [("a.org".toList, ZoneFetch.zoneInfoFail), ("b.org".toList, ZoneFetch.ok 300 [])]
      [] [("b.org".toList, ZoneFetch.ok 300 [])]
      "a.org".toList ZoneFetch.zoneInfoFail).2 (by decide)⟩

/-! ### Claim theorems: apply sequencing and failure policy -/

/-- C4 counterexample.  With an always-succeeding transport, the current
`ApplyChanges` submits FOUR batches per zone, starting with a separate
update-old submission: the claimed order (delete, create, update-new with
no update-old submission) does not match. -/
theorem apply_order_counterexample :
    applyLoop (fun _ _ => true)
        [("bar.org".toList,
          ⟨[⟨"a.bar.org".toList, "A".toList, ["5.5.5.5".toList]⟩],
           [⟨"b.bar.org".toList, "A".toList, ["6.6.6.6".toList]⟩],
           [⟨"b.bar.org".toList, "A".toList, ["7.7.7.7".toList]⟩],
           [⟨"c.bar.org".toList, "A".toList, ["8.8.8.8".toList]⟩]⟩, [])] =
      ([("bar.org".toList, BatchLabel.updateOld), ("bar.org".toList, BatchLabel.delete),
        ("bar.org".toList, BatchLabel.create), ("bar.org".toList, BatchLabel.updateNew)],
       true) ∧
    ("bar.org".toList, BatchLabel.updateOld) ∈
      (applyLoop (fun _ _ => true)
        [("bar.org".toList,
          ⟨[⟨"a.bar.org".toList, "A".toList, ["5.5.5.5".toList]⟩],
           [⟨"b.bar.org".toList, "A".toList, ["6.6.6.6".toList]⟩],
           [⟨"b.bar.org".toList, "A".toList, ["7.7.7.7".toList]⟩],
           [⟨"c.bar.org".toList, "A".toList, ["8.8.8.8".toList]⟩]⟩, [])]).1 := by
  constructor <;> decide

/-- C4 (amended).  Per zone the current `ApplyChanges` submits, in exact
order, the update-old batch (translated with the deletion flag), then the
delete batch, then the create batch, then the update-new batch; the
claimed three-batch order with no separate update-old submission is the
part_005 variant, whose per-zone batch list is delete, create, update-new. -/
theorem apply_submission_order (submit : Str → BatchLabel × List DnsRecord → Bool)
    (zone : Str) (c : Changes) (recs : List DnsRecord)
    (hall : ∀ b, submit zone b = true) :
    (applyLoop submit [(zone, c, recs)]).1 =
      [(zone, BatchLabel.updateOld), (zone, BatchLabel.delete),
       (zone, BatchLabel.create), (zone, BatchLabel.updateNew)] ∧
    (Variant.zoneBatches c zone recs).map Prod.fst =
      [BatchLabel.delete, BatchLabel.create, BatchLabel.updateNew] := by
  refine ⟨?_, rfl⟩
  simp [applyLoop, zoneBatches, runBatches, hall]

/-- Witness for C4 with an always-succeeding transport. -/
theorem apply_submission_order_witness :
    (applyLoop (fun _ _ => true)
        [("bar.org".toList, (⟨[], [], [], []⟩ : Changes), [])]).1 =
      [("bar.org".toList, BatchLabel.updateOld), ("bar.org".toList, BatchLabel.delete),
       ("bar.org".toList, BatchLabel.create), ("bar.org".toList, BatchLabel.updateNew)] ∧
    (Variant.zoneBatches (⟨[], [], [], []⟩ : Changes) "bar.org".toList []).map Prod.fst =
      [BatchLabel.delete, BatchLabel.create, BatchLabel.updateNew] :=
  apply_submission_order (fun _ _ => true) "bar.org".toList ⟨[], [], [], []⟩ []
    (fun _ => rfl)

/-- C5 counterexample.  With a transport that fails every submission, the
first zone's failed update-old submission ends the whole apply cycle: the
second zone is never attempted, contradicting the claimed per-zone
isolation. -/
theorem zone_isolation_counterexample :
    applyLoop (fun _ _ => false)
        [("bar.org".toList, (⟨[], [], [], []⟩ : Changes), []),
         ("baz.org".toList, (⟨[], [], [], []⟩ : Changes), [])] =
      ([("bar.org".toList, BatchLabel.updateOld)], false) ∧
    ∀ e ∈ (applyLoop (fun _ _ => false)
        [("bar.org".toList, (⟨[], [], [], []⟩ : Changes), []),
         ("baz.org".toList, (⟨[], [], [], []⟩ : Changes), [])]).1,
      e.1 ≠ "baz.org".toList := by
  constructor <;> decide

/-- C5 (amended).  In the current `ApplyChanges`, a failed submission for
a zone surfaces the error and aborts the ENTIRE apply cycle: the result is
exactly the failing zone's partial submission trace with the error flag,
so no remaining batch of that zone and no zone after it in iteration
order is attempted. -/
theorem submit_failure_aborts_cycle (submit : Str → BatchLabel × List DnsRecord → Bool)
    (zone : Str) (c : Changes) (recs : List DnsRecord)
    (rest : List (Str × Changes × List DnsRecord))
    (hfail : (runBatches submit zone (zoneBatches c zone recs)).2 = false) :
    applyLoop submit ((zone, c, recs) :: rest) =
      ((runBatches submit zone (zoneBatches c zone recs)).1, false) ∧
    ∀ e ∈ (applyLoop submit ((zone, c, recs) :: rest)).1, e.1 = zone := by
  have happ : applyLoop submit ((zone, c, recs) :: rest) =
      ((runBatches submit zone (zoneBatches c zone recs)).1, false) := by
    simp [applyLoop, hfail]
  refine ⟨happ, ?_⟩
  rw [happ]
  exact runBatches_trace_zone submit zone _

/-- Witness for C5 with an always-failing transport and a trailing zone. -/
theorem submit_failure_aborts_cycle_witness :
    applyLoop (fun _ _ => false)
        [("bar.org".toList, (⟨[], [], [], []⟩ : Changes), []),
         ("x.org".toList, (⟨[], [], [], []⟩ : Changes), [])] =
      ((runBatches (fun _ _ => false) "bar.org".toList
          (zoneBatches (⟨[], [], [], []⟩ : Changes) "bar.org".toList [])).1, false) :=
  (submit_failure_aborts_cycle (fun _ _ => false) "bar.org".toList ⟨[], [], [], []⟩ []
    [("x.org".toList, (⟨[], [], [], []⟩ : Changes), [])] (by decide)).1

/-! ### Lemmas about zone routing -/

theorem endpointZoneNameAux_spec (name : Str) :
    ∀ (zones : List Str) (acc : Str),
      acc.length ≤ (endpointZoneNameAux name zones acc).length ∧
      (∀ z ∈ zones, hasSuffix name z = true →
        z.length ≤ (endpointZoneNameAux name zones acc).length) ∧
      (endpointZoneNameAux name zones acc = acc ∨
        (endpointZoneNameAux name zones acc ∈ zones ∧
          hasSuffix name (endpointZoneNameAux name zones acc) = true)) := by
  intro zones
  induction zones with
  | nil =>
    intro acc
    refine ⟨Nat.le_refl _, ?_, Or.inl rfl⟩
    intro z hz
    cases hz
  | cons z' zs ih =>
    intro acc
    by_cases hc : hasSuffix name z' = true ∧ acc.length < z'.length
    · have hunf : endpointZoneNameAux name (z' :: zs) acc =
          endpointZoneNameAux name zs z' := by
        simp only [endpointZoneNameAux, if_pos hc]
      obtain ⟨ha, hb, hd⟩ := ih z'
      refine ⟨?_, ?_, ?_⟩
      · rw [hunf]
        exact Nat.le_trans (Nat.le_of_lt hc.2) ha
      · rw [hunf]
        intro z hz hsuf
        rcases List.mem_cons.mp hz with rfl | hzs
        · exact ha
        · exact hb z hzs hsuf
      · rw [hunf]
        rcases hd with heq | ⟨hmem, hsuf⟩
        · exact Or.inr ⟨by rw [heq]; exact List.mem_cons_self _ _,
            by rw [heq]; exact hc.1⟩
        · exact Or.inr ⟨List.mem_cons_of_mem _ hmem, hsuf⟩
    · have hunf : endpointZoneNameAux name (z' :: zs) acc =
          endpointZoneNameAux name zs acc := by
        simp only [endpointZoneNameAux, if_neg hc]
      obtain ⟨ha, hb, hd⟩ := ih acc
      refine ⟨?_, ?_, ?_⟩
      · rw [hunf]
        exact ha
      · rw [hunf]
        intro z hz hsuf
        rcases List.mem_cons.mp hz with rfl | hzs
        · have hnl : ¬ acc.length < z.length := fun hlt => hc ⟨hsuf, hlt⟩
          exact Nat.le_trans (Nat.le_of_not_lt hnl) ha
        · exact hb z hzs hsuf
      · rw [hunf]
        rcases hd with heq | ⟨hmem, hsuf⟩
        · exact Or.inl heq
        · exact Or.inr ⟨List.mem_cons_of_mem _ hmem, hsuf⟩

theorem hasSuffix_eq_of_length {name z1 z2 : Str} (h1 : hasSuffix name z1 = true)
    (h2 : hasSuffix name z2 = true) (hl : z1.length = z2.length) : z1 = z2 := by
  have s1 : z1 <:+ name := of_decide_eq_true h1
  have s2 : z2 <:+ name := of_decide_eq_true h2
  rw [List.suffix_iff_eq_drop] at s1 s2
  rw [s1, s2, hl]

theorem routeZoneFirstMatch_spec (nm : Str) :
    ∀ (zs1 : List Str) (z : Str) (zs2 : List Str),
      (∀ z' ∈ zs1, hasSuffix nm z' = false) → hasSuffix nm z = true →
      routeZoneFirstMatch nm (zs1 ++ z :: zs2) = z := by
  intro zs1
  induction zs1 with
  | nil =>
    intro z zs2 _ hz
    simp [routeZoneFirstMatch, hz]
  | cons a as ih =>
    intro z zs2 hnone hz
    have ha : hasSuffix nm a = false := hnone a (List.mem_cons_self _ _)
    simp only [List.cons_append, routeZoneFirstMatch, ha, Bool.false_eq_true,
      if_false]
    exact ih z zs2 (fun z' hz' => hnone z' (List.mem_cons_of_mem _ hz')) hz

/-! ### Claim theorems: zone routing -/

/-- C6 counterexample.  The routing actually used by the current
`ApplyChanges` takes the FIRST matching zone in map-iteration order, not
the longest: when the configured zones are enumerated as bar.org,
foo.bar.org, the endpoint a.foo.bar.org is routed to bar.org even though
the longer suffix foo.bar.org also matches. -/
theorem zone_routing_counterexample :
    routeZoneFirstMatch "a.foo.bar.org".toList
        ["bar.org".toList, "foo.bar.org".toList] = "bar.org".toList ∧
    hasSuffix "a.foo.bar.org".toList "foo.bar.org".toList = true ∧
    ("bar.org".toList : Str).length < ("foo.bar.org".toList : Str).length := by
  refine ⟨by decide, by decide, by decide⟩

/-- C6 (amended).  The standalone router `endpointZoneName` does assign
the longest matching configured suffix (and the empty string when none
matches), and the claim's concrete examples hold for it; but the routing
inlined in the current `ApplyChanges` helper assigns the FIRST matching
zone in map-iteration order, which coincides with the longest match only
when at most one configured zone matches (as in the concrete examples). -/
theorem zone_router_longest_match (ep : Endpoint) (zones : List Str)
    (nm z0 : Str) (zs1 zs2 : List Str) :
    (∀ z ∈ zones, hasSuffix ep.dnsName z = true →
      z.length ≤ (endpointZoneName ep zones).length) ∧
    (endpointZoneName ep zones = [] ∨
      (endpointZoneName ep zones ∈ zones ∧
        hasSuffix ep.dnsName (endpointZoneName ep zones) = true)) ∧
    ((∀ z ∈ zones, hasSuffix ep.dnsName z = false) →
      endpointZoneName ep zones = []) ∧
    (∀ z ∈ zones, hasSuffix ep.dnsName z = true →
      z.length = (endpointZoneName ep zones).length →
      z = endpointZoneName ep zones) ∧
    ((∀ z' ∈ zs1, hasSuffix nm z' = false) → hasSuffix nm z0 = true →
      routeZoneFirstMatch nm (zs1 ++ z0 :: zs2) = z0) ∧
    (endpointZoneName ⟨"foo.bar.org".toList, "A".toList, []⟩
        ["bar.org".toList, "baz.org".toList] = "bar.org".toList ∧
      endpointZoneName ⟨"foo.foo.org".toList, "A".toList, []⟩
        ["bar.org".toList, "baz.org".toList] = [] ∧
      endpointZoneName ⟨"baz.org".toList, "A".toList, []⟩
        ["bar.org".toList, "baz.org".toList] = "baz.org".toList ∧
      routeZoneFirstMatch "foo.bar.org".toList
        ["bar.org".toList, "baz.org".toList] = "bar.org".toList ∧
      routeZoneFirstMatch "foo.foo.org".toList
        ["bar.org".toList, "baz.org".toList] = [] ∧
      routeZoneFirstMatch "baz.org".toList
        ["bar.org".toList, "baz.org".toList] = "baz.org".toList) := by
  obtain ⟨-, hb, hd⟩ := endpointZoneNameAux_spec ep.dnsName zones []
  refine ⟨hb, hd, ?_, ?_, routeZoneFirstMatch_spec nm zs1 z0 zs2,
    by decide, by decide, by decide, by decide, by decide, by decide⟩
  · intro hnone
    rcases hd with heq | ⟨hmem, hsuf⟩
    · exact heq
    · exact absurd hsuf (by rw [hnone _ hmem]; exact Bool.false_ne_true)
  · intro z hz hsuf hlen
    rcases hd with heq | ⟨hmem, hsufr⟩
    · rw [show endpointZoneName ep zones = endpointZoneNameAux ep.dnsName zones []
          from rfl, heq] at hlen ⊢
      exact List.length_eq_zero.mp hlen
    · exact hasSuffix_eq_of_length hsuf hsufr hlen

/-- Witness for C6 at the claim's concrete zones. -/
theorem zone_router_longest_match_witness :
    ("bar.org".toList : Str).length ≤
      (endpointZoneName ⟨"foo.bar.org".toList, "A".toList, []⟩
        ["bar.org".toList, "baz.org".toList]).length ∧
    routeZoneFirstMatch "foo.bar.org".toList
      ([] ++ "bar.org".toList :: ["baz.org".toList]) = "bar.org".toList :=
  ⟨(zone_router_longest_match ⟨"foo.bar.org".toList, "A".toList, []⟩
      ["bar.org".toList, "baz.org".toList] "foo.bar.org".toList
      "bar.org".toList [] ["baz.org".toList]).1
      "bar.org".toList (by decide) (by decide),
   (zone_router_longest_match ⟨"foo.bar.org".toList, "A".toList, []⟩
      ["bar.org".toList, "baz.org".toList] "foo.bar.org".toList
      "bar.org".toList [] ["baz.org".toList]).2.2.2.2.1
      (by intro z' hz'; cases hz') (by decide)⟩
